import Mathlib

/-!
Shallow embedding of the insights-upload service (src/app.py) for checking
the natural-language specification.  Pure Lean models of:

* the content-type regular expression and `split_content` (lines 42-43, 91-101);
* the bounded outbound buffer `produce_queue = collections.deque([], 999)`
  (line 81) with Python deque `append` and `appendleft` overflow semantics;
* the drain portion of the `producer` coroutine (lines 161-181);
* `handle_file` and the body of the `consumer` coroutine (lines 110-136,
  184-227);
* `UploadHandler.upload_validation`, `UploadHandler.post`,
  `UploadHandler.upload` and `UploadHandler.process_upload`
  (lines 248-259, 266-318, 320-361, 381-428).

External effects (broker sends, storage calls, the file system) are modelled
by explicit oracles and effect traces.
-/

namespace InsightsUpload

/-! ### Content type regular expression and service extraction -/

/-- Characters matched by the character class `[a-z0-9-]` of `content_regex`
(ASCII lowercase letters, ASCII digits, hyphen). -/
def serviceChar (c : Char) : Bool :=
  c.isLower || c.isDigit || c = '-'

/-- Consume a literal character sequence from the front of a list, returning
the remainder on success.  Used to embed the anchored literal part
`application/vnd\.redhat\.` of `content_regex`. -/
def eatLit : List Char → List Char → Option (List Char)
  | [], l => some l
  | _ :: _, [] => none
  | p :: ps, c :: cs => if c = p then eatLit ps cs else none

/-- The part of `content_regex` after the literal head:
`([a-z0-9-]+)\.([a-z0-9-]+)\+(tgz|zip)$`.  Because the character class
contains neither `.` nor `+`, the greedy groups are exactly the maximal
`serviceChar` runs.  Python's `$` (without `re.MULTILINE`) also matches just
before a single trailing newline, so a trailing `'\n'` is admitted. -/
def contentRegexTail (l : List Char) : Bool :=
  let a := l.takeWhile serviceChar
  let r1 := l.dropWhile serviceChar
  match a, r1 with
  | _ :: _, '.' :: r2 =>
    let b := r2.takeWhile serviceChar
    let r3 := r2.dropWhile serviceChar
    match b, r3 with
    | _ :: _, '+' :: r4 =>
      decide (r4 = ['t', 'g', 'z'] ∨ r4 = ['z', 'i', 'p'] ∨
              r4 = ['t', 'g', 'z', '\n'] ∨ r4 = ['z', 'i', 'p', '\n'])
    | _, _ => false
  | _, _ => false

/-- Whether `re.search(content_regex, s)` finds a match: the regex is
anchored with `^` and `$`, so this is full-string matching of
`application/vnd\.redhat\.[a-z0-9-]+\.[a-z0-9-]+\+(tgz|zip)` (with Python's
trailing-newline allowance for `$`). -/
def contentRegexMatch (s : String) : Bool :=
  match eatLit "application/vnd.redhat.".toList s.toList with
  | some rest => contentRegexTail rest
  | none => false

/-- Model of Python `str.split('.')`: split a character list at every dot.
The result is always nonempty; an absent dot yields a single segment. -/
def splitOnDot : List Char → List (List Char)
  | [] => [[]]
  | c :: cs =>
    if c = '.' then [] :: splitOnDot cs
    else
      match splitOnDot cs with
      | r :: rs => (c :: r) :: rs
      | [] => [[c]]

/-- Model of `split_content` (app.py lines 91-101):
`service = content.split('.')[2]`.  Indexing out of bounds raises in Python,
modelled by `none`. -/
def split_content (content : String) : Option String :=
  ((splitOnDot content.toList)[2]?).map List.asString

/-! ### Outbound buffer: `collections.deque([], 999)`

The deque is kept as a list whose head is the LEFT end (front, oldest);
`popleft` takes the head, `append` adds at the right end.  Per the Python
documentation, once a bounded deque is full, adding an item discards a
corresponding item from the opposite end. -/

/-- The hard-coded `maxlen` of `produce_queue` (app.py line 81). -/
def PRODUCE_QUEUE_MAXLEN : Nat := 999

/-- `deque.append` with `maxlen = cap`: on a full deque the item at the
opposite (left, oldest) end is discarded. -/
def dappend (cap : Nat) (d : List α) (x : α) : List α :=
  if cap = 0 then []
  else if d.length = cap then d.tail ++ [x]
  else d ++ [x]

/-- `deque.appendleft` with `maxlen = cap`: on a full deque the item at the
opposite (right, newest) end is discarded. -/
def dappendleft (cap : Nat) (d : List α) (x : α) : List α :=
  if cap = 0 then []
  else if d.length = cap then x :: d.dropLast
  else x :: d

/-- The buffer operations the spec claims range over: `enq` is the
`produce_queue.append` done by upload continuations and the validation
handler; `reins` is the `produce_queue.appendleft` done by the producer
loop on a publish failure. -/
inductive BufOp (α : Type) where
  | enq (x : α)
  | reins (x : α)

/-- Apply a sequence of buffer operations to a deque of capacity `cap`. -/
def applyOps (cap : Nat) (ops : List (BufOp α)) (d : List α) : List α :=
  ops.foldl
    (fun q op =>
      match op with
      | BufOp.enq x => dappend cap q x
      | BufOp.reins x => dappendleft cap q x)
    d

/-! ### Producer loop drain cycle (app.py lines 161-181)

The connected producer runs `for _ in range(0, len(produce_queue))`; the
iteration count is fixed at the initial queue length.  Each iteration pops
the front item and awaits `send_and_wait`; on `KafkaError` it sets
`MQStatus.mqp_connected = False` and puts the item back with `appendleft`
(the loop is NOT broken — the next iteration pops the same item again).
Broker outcomes are an oracle indexed by the send-attempt counter. -/

structure ProdState (α : Type) where
  queue : List α
  sent : List α
  connected : Bool
  attempts : Nat
deriving Repr, DecidableEq

/-- One drain cycle, `n` remaining iterations.  The `[]` queue case cannot
arise from `drainCycle` (iterations = initial length, each iteration removes
at most one item) and is the identity. -/
def drainIter (oracle : Nat → Bool) : Nat → ProdState α → ProdState α
  | 0, st => st
  | Nat.succ n, st =>
    match st.queue with
    | [] => st
    | x :: rest =>
      if oracle st.attempts then
        drainIter oracle n
          { queue := rest, sent := st.sent ++ [x],
            connected := st.connected, attempts := st.attempts + 1 }
      else
        drainIter oracle n
          { queue := x :: rest, sent := st.sent,
            connected := false, attempts := st.attempts + 1 }

/-- A full drain cycle of the connected producer over queue `q`. -/
def drainCycle (oracle : Nat → Bool) (q : List α) : ProdState α :=
  drainIter oracle q.length
    { queue := q, sent := [], connected := true, attempts := 0 }

/-! ### Validation handler and consumer loop (app.py lines 110-136, 184-227) -/

/-- The three storage tiers (`storage.QUARANTINE`, `storage.PERM`,
`storage.REJECT`). -/
inductive Tier where
  | QUARANTINE
  | PERM
  | REJECT
deriving Repr, DecidableEq

/-- A JSON-decoded validation record, keeping only the fields `handle_file`
reads: optional `payload_id`, optional legacy `hash`, and the `validation`
field it dispatches on. -/
structure Verdict where
  payload_id : Option String
  hash : Option String
  validation : String
deriving Repr, DecidableEq

/-- An inbound Kafka record: either one whose value fails `json.loads`
(`invalid`) or a decoded record. -/
inductive Msg where
  | invalid
  | valid (v : Verdict)
deriving Repr, DecidableEq

/-- Effects of `handle_file`, in execution order: error logs for the two
drop cases, storage copy invocations, enqueues onto `produce_queue`, and the
unrecognized-result log. -/
inductive Eff where
  | logBadJson
  | logNoId
  | copy (src dst : Tier) (id : String)
  | enqueue (topic url id : String)
  | logUnrecognized (res : String)
deriving Repr, DecidableEq

/-- Model of Python `str.lower()` as used on the `validation` field: the
compared literals (`'success'`, `'failure'`) are ASCII, where `str.lower()`
lowercases character by character exactly as `Char.toLower` does. -/
def strLower (s : String) : String :=
  List.asString (s.toList.map Char.toLower)

/-- Line 205: `payload_id = data['payload_id'] if 'payload_id' in data else
data.get('hash')`. -/
def effectiveId (v : Verdict) : String :=
  match v.payload_id with
  | some p => p
  | none => v.hash.getD ""

/-- Model of `handle_file` (app.py lines 184-227).  `copyF` is the
`storage.copy` oracle; a `Except.error` is a raised storage exception.
Returns the effect trace and whether an exception escaped the function
(`storage.copy` is NOT wrapped in a try block).  Note the two different
drop behaviours taken from the source: a JSON decode failure does
`continue`, a record missing both `payload_id` and `hash` does `return`
(ending the whole batch). -/
def handle_file (copyF : Tier → Tier → String → Except Unit String) :
    List Msg → List Eff × Bool
  | [] => ([], false)
  | Msg.invalid :: rest =>
    let r := handle_file copyF rest
    (Eff.logBadJson :: r.1, r.2)
  | Msg.valid v :: rest =>
    if v.payload_id = none ∧ v.hash = none then
      ([Eff.logNoId], false)
    else
      let pid := effectiveId v
      if strLower v.validation = "success" then
        match copyF Tier.QUARANTINE Tier.PERM pid with
        | Except.ok url =>
          let r := handle_file copyF rest
          (Eff.copy Tier.QUARANTINE Tier.PERM pid ::
             Eff.enqueue "platform.upload.available" url pid :: r.1, r.2)
        | Except.error _ => ([Eff.copy Tier.QUARANTINE Tier.PERM pid], true)
      else if strLower v.validation = "failure" then
        match copyF Tier.QUARANTINE Tier.REJECT pid with
        | Except.ok _ =>
          let r := handle_file copyF rest
          (Eff.copy Tier.QUARANTINE Tier.REJECT pid :: r.1, r.2)
        | Except.error _ => ([Eff.copy Tier.QUARANTINE Tier.REJECT pid], true)
      else
        let r := handle_file copyF rest
        (Eff.logUnrecognized (strLower v.validation) :: r.1, r.2)

/-- Outcome of one connected iteration of the `consumer` coroutine body. -/
inductive LoopOutcome where
  | continues (connected : Bool)
  | crashed
deriving Repr, DecidableEq

/-- One iteration of the `consumer` while-loop body (app.py lines 127-136)
in the connected state.  `poll` is the result of `mqc.getmany()`
(`Except.error` = `KafkaError`).  The `try` block catches `KafkaError`
only: it logs and sets `mqc_connected = False`, and the loop continues.
An exception escaping `handle_file` (a storage error is not a `KafkaError`)
is uncaught and terminates the spawned consumer coroutine. -/
def consumerIter (copyF : Tier → Tier → String → Except Unit String)
    (poll : Except Unit (List Msg)) : LoopOutcome :=
  match poll with
  | Except.error _ => LoopOutcome.continues false
  | Except.ok msgs =>
    match handle_file copyF msgs with
    | (_, true) => LoopOutcome.crashed
    | (_, false) => LoopOutcome.continues true

/-! ### Upload handler (app.py lines 245-428) -/

/-- Default `MAX_LENGTH` (app.py line 46). -/
def MAX_LENGTH : Nat := 11010048

/-- Default `STORAGE_UPLOAD_TIMEOUT` in seconds (app.py line 54). -/
def STORAGE_UPLOAD_TIMEOUT : Nat := 60

/-- `DUMMY_VALUES['rh_account']` (app.py line 59). -/
def DUMMY_RH_ACCOUNT : String := "000001"

/-- `DUMMY_VALUES['principal']` (app.py line 58). -/
def DUMMY_PRINCIPAL : String := "default_principal"

/-- Decoded `x-rh-identity` header contents used by `process_upload`. -/
structure Identity where
  account_number : String
  org_id : String
deriving Repr, DecidableEq

/-- The parts of the HTTP request that `UploadHandler.post` and
`upload_validation` read. -/
structure Request where
  hasUploadFile : Bool
  fileContentType : String
  contentLength : Nat
  payloadId : Option String
  identity : Option Identity
deriving Repr, DecidableEq

/-- The staging data captured when `post` accepts an upload and spawns
`process_upload`. -/
structure Staged where
  service : Option String
  payload_id : String
  size : Nat
  identity : Option Identity
deriving Repr, DecidableEq

/-- Result of `UploadHandler.post`: HTTP status, whether `write_data`
staged the body to a temp file, and the spawned continuation's data. -/
structure PostResult where
  status : Nat
  staged : Bool
  task : Option Staged
deriving Repr, DecidableEq

/-- Model of `UploadHandler.upload_validation` (app.py lines 248-259):
413 when the declared content length is at least `maxLength`, then 415 when
`re.search(content_regex, content_type)` finds no match, else no error. -/
def upload_validation (maxLength : Nat) (r : Request) : Option Nat :=
  if maxLength ≤ r.contentLength then some 413
  else if contentRegexMatch r.fileContentType = false then some 415
  else none

/-- Model of `UploadHandler.post` (app.py lines 381-428): reject 415 when
the `upload` file field is absent; then reject 400 when the
`x-rh-insights-request-id` header is absent; then apply
`upload_validation`; otherwise stage the body and return 202 with the
spawned `process_upload` arguments. -/
def post (maxLength : Nat) (r : Request) : PostResult :=
  if r.hasUploadFile = false then { status := 415, staged := false, task := none }
  else
    match r.payloadId with
    | none => { status := 400, staged := false, task := none }
    | some pid =>
      match upload_validation maxLength r with
      | some code => { status := code, staged := false, task := none }
      | none =>
        { status := 202, staged := true,
          task := some
            { service := split_content r.fileContentType,
              payload_id := pid, size := r.contentLength,
              identity := r.identity } }

/-- Outcome of the `storage.write` call in `UploadHandler.upload`: either
it raises, or it returns a url and a progress callback whose `percentage`
attribute is sampled at each 10ms poll (poll index ↦ percentage). -/
inductive WriteOutcome where
  | raises
  | ok (url : String) (pct : Nat → Nat)

/-- Effects of `UploadHandler.upload`, in execution order. -/
inductive UEff where
  | writeAttempt
  | logException
  | removeTemp
  | logUploadFailed
  | logUploaded
deriving Repr, DecidableEq

/-- Whether the poll loop `for count in range(0, timeout * 10)` observes
`callback.percentage >= 100` at some poll before the timeout. -/
def pollSuccess (pct : Nat → Nat) (polls : Nat) : Bool :=
  (List.range polls).any fun i => 100 ≤ pct i

/-- Model of `UploadHandler.upload` (app.py lines 266-318) for a timeout of
`T` seconds: attempt `storage.write`; on an exception log it; otherwise
poll the callback up to `T * 10` times; in every case then remove the temp
file; return the url only when the write completed in time. -/
def upload (T : Nat) (w : WriteOutcome) : List UEff × Option String :=
  match w with
  | WriteOutcome.raises =>
    ([UEff.writeAttempt, UEff.logException, UEff.removeTemp,
      UEff.logUploadFailed], none)
  | WriteOutcome.ok url pct =>
    if pollSuccess pct (T * 10) then
      ([UEff.writeAttempt, UEff.removeTemp, UEff.logUploaded], some url)
    else
      ([UEff.writeAttempt, UEff.removeTemp, UEff.logUploadFailed], none)

/-- The `values` dict built by `process_upload` (app.py lines 334-347),
which becomes the message of the initial outbound event. -/
structure ReceivedMsg where
  rh_account : String
  principal : String
  validation : Nat
  payload_id : String
  hash : String
  size : Nat
  service : String
  url : Option String
deriving Repr, DecidableEq

/-- An item appended to `produce_queue`: `{'topic': ..., 'msg': ...}`. -/
structure Event where
  topic : String
  msg : ReceivedMsg
deriving Repr, DecidableEq

/-- Model of `UploadHandler.process_upload` (app.py lines 320-361): build
`values` (identity fields from the decoded header when present, else the
dummy values; `hash` duplicates `payload_id`), run `upload`, and only when
the returned url is truthy (`if url:` — non-`None` and nonempty) set
`values['url']` and append exactly one event on topic
`'platform.upload.' + service`. -/
def process_upload (T : Nat) (w : WriteOutcome) (size : Nat)
    (pid : String) (idn : Option Identity) (svc : String) :
    List UEff × List Event :=
  let base : ReceivedMsg :=
    { rh_account :=
        match idn with
        | some i => i.account_number
        | none => DUMMY_RH_ACCOUNT,
      principal :=
        match idn with
        | some i => i.org_id
        | none => DUMMY_PRINCIPAL,
      validation := 1, payload_id := pid, hash := pid,
      size := size, service := svc, url := none }
  let r := upload T w
  match r.2 with
  | some u =>
    if u = "" then (r.1, [])
    else (r.1, [{ topic := "platform.upload." ++ svc,
                  msg := { base with url := some u } }])
  | none => (r.1, [])

/-! ### Helper lemmas -/

lemma eatLit_sound : ∀ (p l r : List Char), eatLit p l = some r → l = p ++ r := by
  intro p
  induction p with
  | nil =>
    intro l r h
    simp only [eatLit, Option.some.injEq] at h
    simp [h]
  | cons x ps ih =>
    intro l r h
    cases l with
    | nil => simp [eatLit] at h
    | cons c cs =>
      simp only [eatLit] at h
      split at h
      · rename_i hc
        have := ih cs r h
        simp [hc, this]
      · exact absurd h (by simp)

lemma splitOnDot_ne_nil (l : List Char) : splitOnDot l ≠ [] := by
  cases l with
  | nil => simp [splitOnDot]
  | cons c cs =>
    simp only [splitOnDot]
    split
    · simp
    · split <;> simp

lemma length_splitOnDot_cons (c : Char) (l : List Char) :
    (splitOnDot (c :: l)).length =
      if c = '.' then (splitOnDot l).length + 1 else (splitOnDot l).length := by
  simp only [splitOnDot]
  split
  · rename_i hc
    simp [hc]
  · cases h : splitOnDot l with
    | nil => exact absurd h (splitOnDot_ne_nil l)
    | cons r rs => simp [h]

lemma splitOnDot_append_length (a b : List Char) :
    (splitOnDot (a ++ b)).length + 1 = (splitOnDot a).length + (splitOnDot b).length := by
  induction a with
  | nil =>
    simp [splitOnDot]
    omega
  | cons c a ih =>
    by_cases hc : c = '.'
    · rw [List.cons_append, length_splitOnDot_cons, length_splitOnDot_cons,
        if_pos hc, if_pos hc]
      omega
    · rw [List.cons_append, length_splitOnDot_cons, length_splitOnDot_cons,
        if_neg hc, if_neg hc]
      omega

/-! ### Claims -/

/-- C2: the spec claims a `storage.copy` error while handling a verdict is
logged and the Consumer Loop continues.  In the code `handle_file` has no
try block around `storage.copy`, and the `consumer` loop's `except` clause
catches `KafkaError` only, so a storage exception escapes the coroutine and
the Consumer Loop terminates.  This theorem evaluates the model at the
failing input: a successfully polled batch with one well-formed `"success"`
verdict whose copy raises. -/
theorem consumer_crash_on_copy_error :
    consumerIter (fun _ _ _ => Except.error ())
        (Except.ok [Msg.valid { payload_id := some "p1", hash := none,
                                validation := "success" }]) =
      LoopOutcome.crashed ∧
    handle_file (fun _ _ _ => Except.error ())
        [Msg.valid { payload_id := some "p1", hash := none, validation := "success" }] =
      ([Eff.copy Tier.QUARANTINE Tier.PERM "p1"], true) :=
  ⟨by decide, by decide⟩

/-- C4 counterexample: the claim's content-type `vnd.redhat.demo.testsvc+tgz`
does not match `content_regex` (which requires the `application/` head), so
the upload is rejected with 415, not accepted with 202; and even for the
`application/`-headed variant, `split_content` (`content.split('.')[2]`)
yields `"demo"`, not `"testsvc"`, so the outbound topic would be
`platform.upload.demo`, not `platform.upload.testsvc`. -/
theorem upload_scenario_topic_cex :
    post MAX_LENGTH
        { hasUploadFile := true, fileContentType := "vnd.redhat.demo.testsvc+tgz",
          contentLength := 100, payloadId := some "abc123", identity := none } =
      { status := 415, staged := false, task := none } ∧
    split_content "application/vnd.redhat.demo.testsvc+tgz" = some "demo" :=
  ⟨by decide, by decide⟩

/-- C4 amended: an upload POST with payload id `"abc123"`, content-type
`application/vnd.redhat.demo.testsvc+tgz` and size 100 receives 202 and
stages a task with service `"demo"` (the third dot-delimited segment of the
full content-type, `application/vnd` being the first); a successful storage
write then produces exactly one outbound event on topic
`platform.upload.demo` with `payload_id = "abc123"`. -/
theorem upload_scenario_amended :
    post MAX_LENGTH
        { hasUploadFile := true,
          fileContentType := "application/vnd.redhat.demo.testsvc+tgz",
          contentLength := 100, payloadId := some "abc123", identity := none } =
      { status := 202, staged := true,
        task := some { service := some "demo", payload_id := "abc123",
                       size := 100, identity := none } } ∧
    (process_upload 1 (WriteOutcome.ok "http://url1" (fun _ => 100))
        100 "abc123" none "demo").2 =
      [{ topic := "platform.upload.demo",
         msg := { rh_account := DUMMY_RH_ACCOUNT, principal := DUMMY_PRINCIPAL,
                  validation := 1, payload_id := "abc123", hash := "abc123",
                  size := 100, service := "demo", url := some "http://url1" } }] :=
  ⟨by decide, by decide⟩

/-- C5: `handle_file` dispatch on the verdict's `validation` field is
case-insensitive (via `str.lower()`): `"success"` copies QUARANTINE to PERM
and enqueues exactly one `platform.upload.available` event carrying the
resulting url and the payload id; `"failure"` copies QUARANTINE to REJECT
and enqueues nothing; any other value performs no storage operation and
enqueues nothing.  `copyUrl` is the url returned by a succeeding
`storage.copy`. -/
theorem handle_file_dispatch (copyUrl : Tier → Tier → String → String)
    (v : Verdict) (hid : ¬(v.payload_id = none ∧ v.hash = none)) :
    (strLower v.validation = "success" →
      handle_file (fun s d i => Except.ok (copyUrl s d i)) [Msg.valid v] =
        ([Eff.copy Tier.QUARANTINE Tier.PERM (effectiveId v),
          Eff.enqueue "platform.upload.available"
            (copyUrl Tier.QUARANTINE Tier.PERM (effectiveId v)) (effectiveId v)],
         false)) ∧
    (strLower v.validation = "failure" →
      handle_file (fun s d i => Except.ok (copyUrl s d i)) [Msg.valid v] =
        ([Eff.copy Tier.QUARANTINE Tier.REJECT (effectiveId v)], false)) ∧
    (strLower v.validation ≠ "success" → strLower v.validation ≠ "failure" →
      handle_file (fun s d i => Except.ok (copyUrl s d i)) [Msg.valid v] =
        ([Eff.logUnrecognized (strLower v.validation)], false)) := by
  refine ⟨?_, ?_, ?_⟩
  · intro h1
    simp [handle_file, hid, h1]
  · intro h1
    simp [handle_file, hid, h1]
  · intro h1 h2
    simp [handle_file, hid, h1, h2]

/-- C5 witness: a concrete uppercase `"SUCCESS"` verdict with a present
`payload_id` takes the success branch. -/
theorem handle_file_dispatch_w :
    handle_file (fun _ _ _ => Except.ok "u9")
        [Msg.valid { payload_id := some "pz", hash := none, validation := "SUCCESS" }] =
      ([Eff.copy Tier.QUARANTINE Tier.PERM "pz",
        Eff.enqueue "platform.upload.available" "u9" "pz"], false) :=
  (handle_file_dispatch (fun _ _ _ => "u9")
      { payload_id := some "pz", hash := none, validation := "SUCCESS" }
      (by simp)).1 (by decide)

/-- C6: the spec claims a record missing both `payload_id` and `hash` is
dropped and processing continues with the remaining records of the batch.
In the code the missing-id branch executes `return` (unlike the JSON-decode
failure branch, which executes `continue`), so the rest of the batch is
abandoned: here the second, well-formed record of the batch produces no copy
and no event, while the same record after an undecodable record is processed
normally. -/
theorem handle_file_missing_id_aborts_batch :
    handle_file (fun _ _ _ => Except.ok "u1")
        [Msg.valid { payload_id := none, hash := none, validation := "success" },
         Msg.valid { payload_id := some "p2", hash := none, validation := "success" }] =
      ([Eff.logNoId], false) ∧
    handle_file (fun _ _ _ => Except.ok "u1")
        [Msg.invalid,
         Msg.valid { payload_id := some "p2", hash := none, validation := "success" }] =
      ([Eff.logBadJson, Eff.copy Tier.QUARANTINE Tier.PERM "p2",
        Eff.enqueue "platform.upload.available" "u1" "p2"], false) :=
  ⟨by decide, by decide⟩

/-- C10: every content-type string accepted by `content_regex` has at least
three dot-delimited segments, so `split_content` (which indexes segment 2 of
the dot-split) is in bounds and never fails for a validated upload. -/
theorem content_regex_service_in_bounds (s : String)
    (h : contentRegexMatch s = true) :
    3 ≤ (splitOnDot s.toList).length ∧ (split_content s).isSome = true := by
  have hsplit : 3 ≤ (splitOnDot s.toList).length := by
    unfold contentRegexMatch at h
    cases heq : eatLit "application/vnd.redhat.".toList s.toList with
    | none => rw [heq] at h; simp at h
    | some rest =>
      have hl := eatLit_sound _ _ _ heq
      rw [hl]
      have h3 : (splitOnDot "application/vnd.redhat.".toList).length = 3 := rfl
      have happ := splitOnDot_append_length "application/vnd.redhat.".toList rest
      have hne : 1 ≤ (splitOnDot rest).length :=
        List.length_pos.mpr (splitOnDot_ne_nil rest)
      omega
  refine ⟨hsplit, ?_⟩
  unfold split_content
  have h2 : 2 < (splitOnDot s.toList).length := by omega
  rw [List.getElem?_eq_getElem h2]
  rfl

/-- C10 witness: the accepted content-type
`application/vnd.redhat.demo.testsvc+tgz` has at least three dot segments
and a defined service. -/
theorem content_regex_service_in_bounds_w :
    3 ≤ (splitOnDot "application/vnd.redhat.demo.testsvc+tgz".toList).length ∧
      (split_content "application/vnd.redhat.demo.testsvc+tgz").isSome = true :=
  content_regex_service_in_bounds "application/vnd.redhat.demo.testsvc+tgz" rfl

/-! ### Producer drain cycle lemmas -/

lemma drainIter_all_fail (oracle : Nat → Bool) :
    ∀ (k : Nat) (q s : List α) (c : Bool) (a : Nat), q ≠ [] →
      (∀ m, oracle (a + m) = false) →
      drainIter oracle (k + 1) ⟨q, s, c, a⟩ = ⟨q, s, false, a + (k + 1)⟩ := by
  intro k
  induction k with
  | zero =>
    intro q s c a hq hf
    cases q with
    | nil => exact absurd rfl hq
    | cons x rest =>
      have h0 : oracle a = false := by simpa using hf 0
      simp [drainIter, h0]
  | succ k ih =>
    intro q s c a hq hf
    cases q with
    | nil => exact absurd rfl hq
    | cons x rest =>
      have h0 : oracle a = false := by simpa using hf 0
      have step : drainIter oracle (k + 1 + 1) (⟨x :: rest, s, c, a⟩ : ProdState α) =
          drainIter oracle (k + 1) ⟨x :: rest, s, false, a + 1⟩ := by
        simp [drainIter, h0]
      rw [step, ih (x :: rest) s false (a + 1) hq ?_]
      · have harith : a + 1 + (k + 1) = a + (k + 1 + 1) := by omega
        rw [harith]
      · intro m
        have h := hf (m + 1)
        have harith : a + 1 + m = a + (m + 1) := by omega
        rw [harith]
        exact h

lemma drainIter_phase (oracle : Nat → Bool) :
    ∀ (j : Nat) (q s : List α) (a k : Nat),
      j < q.length → q.length ≤ k →
      (∀ n, n < j → oracle (a + n) = true) →
      (∀ n, j ≤ n → oracle (a + n) = false) →
      drainIter oracle k ⟨q, s, true, a⟩ =
        ⟨q.drop j, s ++ q.take j, false, a + k⟩ := by
  intro j
  induction j with
  | zero =>
    intro q s a k hj hk hs hf
    have hq : q ≠ [] := by
      intro h
      rw [h] at hj
      simp at hj
    obtain ⟨k1, rfl⟩ : ∃ k1, k = k1 + 1 := by
      cases k with
      | zero => omega
      | succ k1 => exact ⟨k1, rfl⟩
    rw [drainIter_all_fail oracle k1 q s true a hq (fun m => hf m (Nat.zero_le m))]
    simp
  | succ j ih =>
    intro q s a k hj hk hs hf
    cases q with
    | nil => simp at hj
    | cons x rest =>
      obtain ⟨k1, rfl⟩ : ∃ k1, k = k1 + 1 := by
        cases k with
        | zero => simp at hk
        | succ k1 => exact ⟨k1, rfl⟩
      have h0 : oracle a = true := by simpa using hs 0 (Nat.succ_pos j)
      have step : drainIter oracle (k1 + 1) (⟨x :: rest, s, true, a⟩ : ProdState α) =
          drainIter oracle k1 ⟨rest, s ++ [x], true, a + 1⟩ := by
        simp [drainIter, h0]
      have hj1 : j < rest.length := by
        simp only [List.length_cons] at hj
        omega
      have hk1 : rest.length ≤ k1 := by
        simp only [List.length_cons] at hk
        omega
      have hs1 : ∀ n, n < j → oracle (a + 1 + n) = true := by
        intro n hn
        have h := hs (n + 1) (by omega)
        have harith : a + 1 + n = a + (n + 1) := by omega
        rw [harith]
        exact h
      have hf1 : ∀ n, j ≤ n → oracle (a + 1 + n) = false := by
        intro n hn
        have h := hf (n + 1) (by omega)
        have harith : a + 1 + n = a + (n + 1) := by omega
        rw [harith]
        exact h
      rw [step, ih rest (s ++ [x]) (a + 1) k1 hj1 hk1 hs1 hf1]
      simp [ProdState.mk.injEq, List.append_assoc]
      omega

/-! ### More claims -/

/-- C1 counterexample: with a batch of two events and a broker that raises
on the very first publish attempt only, the drain cycle sets the connected
flag to false and re-inserts the failed event at the front, but the `for`
loop is not broken: the next iteration pops that same event and publishes
it successfully — `sent = [0]` — within the same drain cycle and with no
reconnect having happened (`connected` is still `false`).  This refutes the
claim that after a broker error no further events of that drain batch are
sent until after a successful reconnect. -/
theorem drain_batch_continues_after_error_cex :
    (fun n => decide (n ≠ 0)) 0 = false ∧
    drainCycle (fun n => decide (n ≠ 0)) [0, 1] =
      { queue := [1], sent := [0], connected := false, attempts := 2 } :=
  ⟨by decide, by decide⟩

/-- C1 amended: on a broker error the flag is set to false and the failed
event is re-inserted at the front; the drain loop keeps retrying it within
the same cycle, and when the error persists for the remainder of the cycle
(attempts `j` onward all fail, the first `j` attempts having succeeded),
the cycle ends disconnected with the first `j` events sent, the failed
event at the front of the buffer, the rest of the batch behind it in order,
and nothing dropped — so after a reconnect the next cycle resumes draining
from the point of failure. -/
theorem drainCycle_persistent_failure (oracle : Nat → Bool) (q : List α)
    (j : Nat) (hj : j < q.length)
    (hs : ∀ n, n < j → oracle n = true)
    (hf : ∀ n, j ≤ n → oracle n = false) :
    (drainCycle oracle q).connected = false ∧
    (drainCycle oracle q).sent = q.take j ∧
    (drainCycle oracle q).queue = q.drop j ∧
    (drainCycle oracle q).sent ++ (drainCycle oracle q).queue = q := by
  have h := drainIter_phase oracle j q [] 0 q.length hj (Nat.le_refl _)
      (fun n hn => by simpa using hs n hn)
      (fun n hn => by simpa using hf n hn)
  unfold drainCycle
  rw [h]
  simp

/-- Oracle for the C1 witness: the first publish attempt succeeds, every
later one fails. -/
def oFirstOnly : Nat → Bool := fun n => decide (n = 0)

/-- C1 amended witness: queue `[10, 20, 30]`, failure from attempt 1 on. -/
theorem drainCycle_persistent_failure_w :
    (drainCycle oFirstOnly [10, 20, 30]).connected = false ∧
    (drainCycle oFirstOnly [10, 20, 30]).sent = [10] ∧
    (drainCycle oFirstOnly [10, 20, 30]).queue = [20, 30] ∧
    (drainCycle oFirstOnly [10, 20, 30]).sent ++
      (drainCycle oFirstOnly [10, 20, 30]).queue = [10, 20, 30] := by
  have h := drainCycle_persistent_failure oFirstOnly [10, 20, 30] 1
      (by decide)
      (fun n hn => by
        have hn0 : n = 0 := by omega
        rw [hn0]
        rfl)
      (fun n hn => by
        simp [oFirstOnly]
        omega)
  simpa using h

/-! ### Outbound buffer lemmas -/

lemma length_dappend_le (cap : Nat) (d : List α) (x : α)
    (h : d.length ≤ cap) : (dappend cap d x).length ≤ cap := by
  unfold dappend
  split
  · simp
  · split
    · rename_i hc hl
      simp only [List.length_append, List.length_tail, List.length_cons,
        List.length_nil]
      omega
    · rename_i hc hl
      simp only [List.length_append, List.length_cons, List.length_nil]
      omega

lemma length_dappendleft_le (cap : Nat) (d : List α) (x : α)
    (h : d.length ≤ cap) : (dappendleft cap d x).length ≤ cap := by
  unfold dappendleft
  split
  · simp
  · split
    · rename_i hc hl
      simp only [List.length_cons, List.length_dropLast]
      omega
    · rename_i hc hl
      simp only [List.length_cons]
      omega

/-- C3 counterexample: the full `produce_queue` (capacity 999) holds events
`0 .. 998`, oldest `0` at the front, newest `998` at the back.  A re-insert
(the producer loop's `appendleft` after a publish failure) into the full
deque discards `998` — the NEWEST unsent event — and keeps the oldest `0`,
refuting the claim that whenever an insertion into a full buffer occurs the
oldest unsent event is the one discarded. -/
theorem reinsert_full_buffer_discards_newest_cex :
    dappendleft PRODUCE_QUEUE_MAXLEN (List.range 999) 1000 =
      1000 :: List.range 998 ∧
    (998 : Nat) ∈ List.range 999 ∧
    (998 : Nat) ∉ 1000 :: List.range 998 ∧
    (0 : Nat) ∈ 1000 :: List.range 998 := by
  have h2 : (List.range 999).dropLast = List.range 998 := by
    rw [show (999 : Nat) = 998 + 1 from rfl, List.range_succ,
      List.dropLast_concat]
  refine ⟨?_, ?_, ?_, ?_⟩
  · unfold dappendleft PRODUCE_QUEUE_MAXLEN
    rw [if_neg (by omega), if_pos (by simp), h2]
  · simp
  · simp [List.mem_range]
  · simp [List.mem_range]

/-- C3 amended: under every sequence of enqueue (`append`) and re-insert
(`appendleft`) operations the buffer's size never exceeds the configured
capacity; an enqueue into a full buffer discards the oldest (front) event
to admit the newest, but a re-insert into a full buffer discards the
newest (back) event, not the oldest. -/
theorem buffer_bounded_and_discard_policy (cap : Nat) :
    (∀ (ops : List (BufOp α)) (d : List α), d.length ≤ cap →
      (applyOps cap ops d).length ≤ cap) ∧
    (∀ (d : List α) (x : α), 1 ≤ cap → d.length = cap →
      dappend cap d x = d.tail ++ [x]) ∧
    (∀ (d : List α) (x : α), 1 ≤ cap → d.length = cap →
      dappendleft cap d x = x :: d.dropLast) := by
  refine ⟨?_, ?_, ?_⟩
  · intro ops
    induction ops with
    | nil =>
      intro d h
      simpa [applyOps] using h
    | cons op rest ih =>
      intro d h
      cases op with
      | enq x =>
        have h1 := length_dappend_le cap d x h
        simpa [applyOps] using ih (dappend cap d x) h1
      | reins x =>
        have h1 := length_dappendleft_le cap d x h
        simpa [applyOps] using ih (dappendleft cap d x) h1
  · intro d x h1 h2
    unfold dappend
    rw [if_neg (by omega), if_pos h2]
  · intro d x h1 h2
    unfold dappendleft
    rw [if_neg (by omega), if_pos h2]

/-- C3 amended witness: the configured capacity 999, a burst of enqueues
into an empty buffer, and a re-insert into the full buffer. -/
theorem buffer_bounded_and_discard_policy_w :
    (applyOps PRODUCE_QUEUE_MAXLEN
        [BufOp.enq 5, BufOp.reins 7, BufOp.enq 9] ([] : List Nat)).length ≤
      PRODUCE_QUEUE_MAXLEN ∧
    dappendleft PRODUCE_QUEUE_MAXLEN (List.range 999) 1000 =
      1000 :: (List.range 999).dropLast :=
  ⟨(buffer_bounded_and_discard_policy PRODUCE_QUEUE_MAXLEN).1
      [BufOp.enq 5, BufOp.reins 7, BufOp.enq 9] [] (by decide),
   (buffer_bounded_and_discard_policy PRODUCE_QUEUE_MAXLEN).2.2
      (List.range 999) 1000 (by decide) (by simp [PRODUCE_QUEUE_MAXLEN])⟩

/-- C7: `post` validates before staging, in this order: missing `upload`
file field rejects with 415; then a missing `x-rh-insights-request-id`
header rejects with 400 (before the size and content-type checks take
effect); then declared content length at least the configured maximum
rejects with 413; then a content-type not matching `content_regex` rejects
with 415; and a rejected request (any non-202 outcome) never stages the
body. -/
theorem post_validation_order (m : Nat) (r : Request) :
    (r.hasUploadFile = false →
      post m r = { status := 415, staged := false, task := none }) ∧
    (r.hasUploadFile = true → r.payloadId = none →
      post m r = { status := 400, staged := false, task := none }) ∧
    (r.hasUploadFile = true → r.payloadId.isSome = true →
      m ≤ r.contentLength →
      post m r = { status := 413, staged := false, task := none }) ∧
    (r.hasUploadFile = true → r.payloadId.isSome = true →
      r.contentLength < m → contentRegexMatch r.fileContentType = false →
      post m r = { status := 415, staged := false, task := none }) ∧
    ((post m r).status ≠ 202 → (post m r).staged = false) := by
  refine ⟨?_, ?_, ?_, ?_, ?_⟩
  · intro h
    simp [post, h]
  · intro h1 h2
    simp [post, h1, h2]
  · intro h1 h2 h3
    cases hp : r.payloadId with
    | none => rw [hp] at h2; simp at h2
    | some p => simp [post, upload_validation, h1, hp, h3]
  · intro h1 h2 h3 h4
    cases hp : r.payloadId with
    | none => rw [hp] at h2; simp at h2
    | some p =>
      have h3n : ¬ m ≤ r.contentLength := by omega
      simp [post, upload_validation, h1, hp, h3n, h4]
  · intro h
    by_cases hu : r.hasUploadFile = false
    · simp [post, hu]
    · have hu1 : r.hasUploadFile = true := by
        cases hb : r.hasUploadFile
        · exact absurd hb hu
        · rfl
      cases hp : r.payloadId with
      | none => simp [post, hu1, hp]
      | some p =>
        cases hv : upload_validation m r with
        | none => simp [post, hu1, hp, hv] at h
        | some code => simp [post, hu1, hp, hv]

/-- C7 witness: a request with the upload field present but no caller
identifier header gets the bad-request signal with no staging. -/
theorem post_validation_order_w :
    post 10 { hasUploadFile := true, fileContentType := "x", contentLength := 5,
              payloadId := none, identity := none } =
      { status := 400, staged := false, task := none } :=
  (post_validation_order 10
      { hasUploadFile := true, fileContentType := "x", contentLength := 5,
        payloadId := none, identity := none }).2.1 rfl rfl

/-- C8: for every accepted upload, the temp file removal happens on every
path of `upload` (write raised, write timed out, write completed), and the
initial outbound event is enqueued only if the write completed within the
timeout: a raised write or a timed-out write produces no outbound event. -/
theorem upload_cleanup_and_event_gating (T : Nat) (w : WriteOutcome)
    (size : Nat) (pid : String) (idn : Option Identity) (svc : String) :
    UEff.removeTemp ∈ (upload T w).1 ∧
    ((process_upload T w size pid idn svc).2 ≠ [] →
      ∃ u pct, w = WriteOutcome.ok u pct ∧ pollSuccess pct (T * 10) = true) ∧
    (w = WriteOutcome.raises →
      (process_upload T w size pid idn svc).2 = []) ∧
    (∀ u pct, w = WriteOutcome.ok u pct → pollSuccess pct (T * 10) = false →
      (process_upload T w size pid idn svc).2 = []) := by
  cases w with
  | raises =>
    refine ⟨by simp [upload], ?_, ?_, ?_⟩
    · intro hne
      exact absurd (by simp [process_upload, upload]) hne
    · intro _
      simp [process_upload, upload]
    · intro u pct h
      exact absurd h (by simp)
  | ok url pct =>
    by_cases hp : pollSuccess pct (T * 10) = true
    · refine ⟨by simp [upload, hp], ?_, ?_, ?_⟩
      · intro _
        exact ⟨url, pct, rfl, hp⟩
      · intro h
        exact absurd h (by simp)
      · intro u p h hfail
        cases h
        rw [hp] at hfail
        simp at hfail
    · have hp1 : pollSuccess pct (T * 10) = false := by
        cases hb : pollSuccess pct (T * 10)
        · rfl
        · exact absurd hb hp
      refine ⟨by simp [upload, hp1], ?_, ?_, ?_⟩
      · intro hne
        exact absurd (by simp [process_upload, upload, hp1]) hne
      · intro h
        exact absurd h (by simp)
      · intro u p h hfail
        cases h
        simp [process_upload, upload, hp1]

/-- C8 witness: a raising storage write removes the temp file and enqueues
nothing. -/
theorem upload_cleanup_and_event_gating_w :
    (process_upload 1 WriteOutcome.raises 7 "p7" none "svc7").2 = [] :=
  (upload_cleanup_and_event_gating 1 WriteOutcome.raises 7 "p7" none
      "svc7").2.2.1 rfl

/-- C9: an upload staged successfully (the write returned a truthy url)
enqueues exactly one received event on `'platform.upload.' + service`; its
`payload_id` equals the caller-supplied identifier, its `hash` equals that
same payload id, and `rh_account`/`principal` come from the decoded caller
identity when present and from the fixed dummy values otherwise. -/
theorem process_upload_received_event (T : Nat) (w : WriteOutcome)
    (size : Nat) (pid : String) (idn : Option Identity) (svc : String)
    (u : String) (h : (upload T w).2 = some u) (hne : u ≠ "") :
    (process_upload T w size pid idn svc).2 =
      [{ topic := "platform.upload." ++ svc,
         msg := { rh_account :=
                    match idn with
                    | some i => i.account_number
                    | none => DUMMY_RH_ACCOUNT,
                  principal :=
                    match idn with
                    | some i => i.org_id
                    | none => DUMMY_PRINCIPAL,
                  validation := 1, payload_id := pid, hash := pid,
                  size := size, service := svc, url := some u } }] := by
  simp [process_upload, h, hne]

/-- C9 witness: a completed write with identity present yields one event
with `payload_id = hash = "pid9"` and the identity's account and org. -/
theorem process_upload_received_event_w :
    (process_upload 1 (WriteOutcome.ok "http://u2" (fun _ => 100)) 42 "pid9"
        (some { account_number := "acct", org_id := "org" }) "svc9").2 =
      [{ topic := "platform.upload.svc9",
         msg := { rh_account := "acct", principal := "org", validation := 1,
                  payload_id := "pid9", hash := "pid9", size := 42,
                  service := "svc9", url := some "http://u2" } }] :=
  process_upload_received_event 1 (WriteOutcome.ok "http://u2" (fun _ => 100))
    42 "pid9" (some { account_number := "acct", org_id := "org" }) "svc9"
    "http://u2" (by decide) (by decide)

end InsightsUpload
